import Mathlib

/-!
Verification of the odoo-cli client (src/bin/odoo_api.py) against its
natural-language specification.

The embedding models the JSON values handled by the client, the response
filters (the sparse filter of `show` and the dump noise filter of
`config-dump`), the request construction of the RPC client, the bulk
configuration export loop, and the CLI dispatch table.

Modelling conventions:
  - Python dicts are ordered association lists `List (String, Json)`;
    dict keys are unique in every value produced by `json.loads` /
    `response.json()`, and the definitions note where that matters.
  - Python floats are modelled as rationals (`Rat`); the only float the
    claims touch is the literal `0.0`, and Python `0 == 0.0` holds in the
    model because both sides are compared as numbers.
  - Fallible Python code (KeyError, TypeError, uncaught exceptions)
    returns `Option` / a pair carrying an optional exception message.
-/

/-- A JSON value as handled by the client.  `bool`, `int` and `float` are
separate constructors because Python distinguishes them while making
`False == 0 == 0.0` true under numeric comparison. -/
inductive Json where
  | null
  | bool (b : Bool)
  | int (n : Int)
  | float (q : Rat)
  | str (s : String)
  | arr (elems : List Json)
  | obj (fields : List (String × Json))

/-- An ordered field mapping, the model of a Python dict with JSON values. -/
abbrev Dict := List (String × Json)

/-- One result record of a search operation: a mapping of field name to value. -/
abbrev Record := Dict

/-- Python `d[k]` on a dict: the value at key `k`, `none` on KeyError.
Keys of a decoded JSON object are unique, so the first match is the match. -/
def dictLookup (k : String) (d : Dict) : Option Json :=
  (d.find? (fun kv => kv.1 == k)).map (fun kv => kv.2)

/-- The membership test of `OdooApi.show` (odoo_api.py line 325):
`v not in ("", [], None, 0, 0.0)` under Python equality.  Python compares
`False == 0` and `True == 1`, so a boolean is kept exactly when it is
`True`; an int or float is kept exactly when it is nonzero (Python
`0 == 0.0`); objects (dicts) compare unequal to all five literals. -/
def sparseKeep (v : Json) : Bool :=
  match v with
  | .null => false
  | .bool b => b
  | .int n => !(decide (n = 0))
  | .float q => !(decide (q = 0))
  | .str s => !(decide (s = ""))
  | .arr l => !(l.isEmpty)
  | .obj _ => true

/-- The sparse filter comprehension of `OdooApi.show` (lines 324-327):
for each record keep exactly the pairs whose value passes `sparseKeep`,
preserving field order within a record and record order in the list. -/
def sparseRecords (result : List Record) : List Record :=
  result.map (fun record => record.filter (fun kv => sparseKeep kv.2))

/-- `OdooApi.show` (lines 309-327) after the search result has been
fetched: verbose mode returns the result unchanged, otherwise the sparse
filter is applied.  (`show` is a Lean keyword, hence the name.) -/
def showCmd (result : List Record) (verbose : Bool) : List Record :=
  if verbose then result else sparseRecords result

/-- Modelled from the spec: the removal set claimed for the sparse filter,
exactly the five values empty string, empty array, null, integer zero,
float zero (as JSON values). -/
def specRemovedFive (v : Json) : Prop :=
  v = .str "" ∨ v = .arr [] ∨ v = .null ∨ v = .int 0 ∨ v = .float 0

/-- The corrected removal set: the five claimed values plus boolean false,
which Python treats as equal to `0`. -/
def specRemovedSix (v : Json) : Prop :=
  v = .str "" ∨ v = .arr [] ∨ v = .null ∨ v = .int 0 ∨ v = .float 0 ∨ v = .bool false

/-- Boolean checker for `specRemovedSix`. -/
def checkSix (v : Json) : Bool :=
  match v with
  | .str s => decide (s = "")
  | .arr l => l.isEmpty
  | .null => true
  | .int n => decide (n = 0)
  | .float q => decide (q = 0)
  | .bool b => !b
  | .obj _ => false

/-- Lexicographic comparison of character lists by code point, the
semantics of Python string `<`. -/
def charListLt : List Char → List Char → Bool
  | [], [] => false
  | [], _ :: _ => true
  | _ :: _, [] => false
  | a :: as, b :: bs =>
    if a.toNat < b.toNat then true
    else if b.toNat < a.toNat then false
    else charListLt as bs

/-- Python string comparison `s < t` (lexicographic by code point). -/
def pyStrLt (s t : String) : Bool := charListLt s.data t.data

/-- The numeric value of a JSON scalar under Python comparison: booleans
count as 0 and 1, ints and floats as their numeric value. -/
def numVal : Json → Option Rat
  | .bool b => some (if b then 1 else 0)
  | .int n => some n
  | .float q => some q
  | _ => none

/-- The string-comparison fallback of `pyLt`: defined only on two
strings, every other non-numeric pair raises TypeError in Python. -/
def strLtCase : Json → Json → Option Bool
  | .str s, .str t => some (pyStrLt s t)
  | _, _ => none

/-- Python `a < b` on JSON scalars: numbers compare numerically (booleans
as 0 and 1), strings lexicographically; any other pair raises TypeError,
modelled as `none`.  Lists of these scalars are what the exported
fiscal-country-group-codes field holds. -/
def pyLt (a b : Json) : Option Bool :=
  match numVal a, numVal b with
  | some x, some y => some (decide (x < y))
  | _, _ => strLtCase a b

/-- One step of stable insertion: place `x` before the first element it
is strictly less than.  Together with `pySortInto` this computes the
unique stable ascending ordering that Python `sorted` produces, failing
exactly when an incomparable pair is compared. -/
def pyInsert (x : Json) : List Json → Option (List Json)
  | [] => some [x]
  | y :: ys =>
    match pyLt x y with
    | some true => some (x :: y :: ys)
    | some false => (pyInsert x ys).map (fun l => y :: l)
    | none => none

/-- Insertion sort accumulating into an already sorted prefix; the model
of Python `sorted` on a list. -/
def pySortInto : List Json → List Json → Option (List Json)
  | acc, [] => some acc
  | acc, x :: xs =>
    match pyInsert x acc with
    | some acc2 => pySortInto acc2 xs
    | none => none

/-- Python `sorted(v)` as used in `_cleanup_dump_data` (line 358): the
field holds a JSON array, which is sorted ascending; a non-array value
would raise TypeError in Python (other iterables such as strings do not
occur in that field), modelled as `none`. -/
def pySorted (v : Json) : Option Json :=
  match v with
  | .arr l => (pySortInto [] l).map Json.arr
  | _ => none

/-- The in-place update `entry["fiscal_country_group_codes"] =
sorted(entry["fiscal_country_group_codes"])` of `_cleanup_dump_data`
(lines 356-360), expressed entrywise: the pair at the key keeps its
position and gets the sorted value, all other pairs are unchanged.  Dict
keys are unique, so updating every pair with the key equals updating the
single existing one. -/
def sortFieldEntries : Record → Option Record
  | [] => some []
  | kv :: rest =>
    if kv.1 = "fiscal_country_group_codes" then
      match pySorted kv.2, sortFieldEntries rest with
      | some s, some t => some ((kv.1, s) :: t)
      | _, _ => none
    else
      match sortFieldEntries rest with
      | some t => some (kv :: t)
      | none => none

/-- The `res.users` branch of `_cleanup_dump_data` for one record: the
guard `"fiscal_country_group_codes" in entry` and, when present, the
sorting update. -/
def cleanupUsersEntry (entry : Record) : Option Record :=
  if entry.any (fun kv => kv.1 == "fiscal_country_group_codes") then
    sortFieldEntries entry
  else
    some entry

/-- The `res.users` branch of `_cleanup_dump_data` over the record list. -/
def cleanupUsersData : List Record → Option (List Record)
  | [] => some []
  | e :: es =>
    match cleanupUsersEntry e, cleanupUsersData es with
    | some e2, some es2 => some (e2 :: es2)
    | _, _ => none

/-- Ascending order between adjacent sorted elements: the right element
is not Python-less-than the left one. -/
def pyAsc (a b : Json) : Prop := pyLt b a = some false

/-- HTTP request method.  `requests.post` issues POST, `requests.get`
would issue GET; the client under verification only ever posts. -/
inductive HttpMethod where
  | get
  | post
deriving DecidableEq

/-- One outbound HTTP request as constructed by `OdooApi._call`: method,
full URL, header list, and the JSON body (the named parameters). -/
structure HttpRequest where
  method : HttpMethod
  url : String
  headers : List (String × String)
  body : Dict

/-- The connection state of the `OdooApi` class (lines 215-227). -/
structure OdooApi where
  baseurl : String
  apiurl : String
  api_key : String
  db : Option String
  headers : List (String × String)

/-- Stands for `requests.utils.default_user_agent()`: an opaque library
string; no claim depends on its value. -/
def defaultUserAgent : String := "python-requests/2"

/-- `OdooApi.__init__` (lines 216-227): stores the base URL, derives the
API sub-path URL, and builds the fixed header set with the bearer API
key; the database-selector header is added only when `db` is truthy
(Python treats an empty string as falsy). -/
def OdooApi.init (url api_key : String) (db : Option String) : OdooApi :=
  { baseurl := url
    apiurl := url ++ "/json/2"
    api_key := api_key
    db := db
    headers :=
      [("User-Agent", "odoo_api " ++ defaultUserAgent),
       ("Authorization", "bearer " ++ api_key)] ++
      (match db with
       | some d => if d = "" then [] else [("X-Odoo-Database", d)]
       | none => []) }

/-- `OdooApi._call` (lines 229-240): one `requests.post` to
`url/odoo_model/odoo_method` with the stored headers and the named
parameters as JSON body.  The non-2xx check (`raise_for_status`) and the
parsed response are modelled where claims need them. -/
def OdooApi.internalCall (api : OdooApi) (url odoo_model odoo_method : String)
    (kwargs : Dict) : HttpRequest :=
  { method := .post
    url := url ++ "/" ++ odoo_model ++ "/" ++ odoo_method
    headers := api.headers
    body := kwargs }

/-- `OdooApi.call` (lines 242-243): `_call` against the API sub-path URL. -/
def OdooApi.apiCall (api : OdooApi) (odoo_model odoo_method : String)
    (kwargs : Dict) : HttpRequest :=
  api.internalCall api.apiurl odoo_model odoo_method kwargs

/-- `OdooApi.create` (lines 335-338): wraps the argument mapping in a
one-element list and issues `call(model, "create", vals_list=[args])`. -/
def OdooApi.create (api : OdooApi) (model : String) (args : Dict) : HttpRequest :=
  api.apiCall model "create" [("vals_list", Json.arr [Json.obj args])]

/-- `OdooApi.get_databases` (lines 252-255), request side:
`_call(self.baseurl, "web", "database/list")` with no named parameters,
so the request goes to the root URL, not the API sub-path. -/
def OdooApi.get_databases_request (api : OdooApi) : HttpRequest :=
  api.internalCall api.baseurl "web" "database/list" []

/-- `OdooApi.get_databases` (line 255), response side: the subscript
`["result"]` of the JSON-RPC-shaped response body; a missing key or
non-object body raises in Python, modelled as `none`. -/
def get_databases_result (body : Json) : Option Json :=
  match body with
  | .obj fields => dictLookup "result" fields
  | _ => none

/-- Python `d[k] = v` on a dict: overwrite in place when the key exists
(keeping its position), append otherwise. -/
def dictSet (d : Dict) (k : String) (v : Json) : Dict :=
  if d.any (fun kv => kv.1 == k) then
    d.map (fun kv => if kv.1 == k then (k, v) else kv)
  else
    d ++ [(k, v)]

/-- Python `d.update(u)`: set every pair of `u` into `d` in order. -/
def dictUpdate (d u : Dict) : Dict :=
  u.foldl (fun acc kv => dictSet acc kv.1 kv.2) d

/-- `OdooApi.raw` (lines 427-435): start from empty named parameters,
merge in the JSON mapping if truthy, then merge in the key/value argument
mapping if truthy (so `args` overwrites `json` on common keys), and issue
the generic call.  Python `if json:` / `if args:` skip `None` and the
empty dict alike. -/
def OdooApi.raw (api : OdooApi) (model method2 : String)
    (json args : Option Dict) : HttpRequest :=
  let kwargs : Dict := []
  let kwargs1 :=
    match json with
    | some jd => if jd.isEmpty then kwargs else dictUpdate kwargs jd
    | none => kwargs
  let kwargs2 :=
    match args with
    | some ad => if ad.isEmpty then kwargs1 else dictUpdate kwargs1 ad
    | none => kwargs1
  api.apiCall model method2 kwargs2

/-- The observable effects of the command dispatch at the bottom of the
script (lines 477-482): either the selected client method runs (one RPC
path) and its result is printed, or for an unknown command a message and
the help text are printed. -/
inductive MainEffect where
  | rpcDispatch (command : String)
  | printLine (s : String)
  | printHelp

/-- The single-quote character of the unsupported-command message. -/
def sqc : String := String.singleton (Char.ofNat 39)

/-- The keys of the `method_map` dispatch table (lines 460-475). -/
def methodMapKeys : List String :=
  ["identity", "databases", "customers", "active_subscriptions",
   "subscription_credentials", "support_customers", "list", "show", "dump",
   "reinit", "create", "mail-add", "config-dump", "call"]

/-- The dispatch of `__main__` (lines 477-482): a known command invokes
the mapped client method (modelled as one `rpcDispatch` effect); any
other command name prints the unsupported-command message followed by the
help text, with no RPC and no exception (both branches return normally). -/
def dispatchCommand (command : String) : List MainEffect :=
  if methodMapKeys.contains command then
    [MainEffect.rpcDispatch command]
  else
    [MainEffect.printLine ("unsupported command " ++ sqc ++ command ++ sqc ++ "\n"),
     MainEffect.printHelp]

/-- `OdooApi._cleanup_dump_data` (lines 349-361).  For `account.journal`
every record drops the key `kanban_dashboard_graph` (`entry.pop(key,
None)`; keys are unique, so removing all pairs with the key equals
popping the one).  For `res.users` the fiscal-country-group-codes field
is sorted where present.  Every other model passes through unchanged.
An uncaught TypeError from `sorted` is modelled as `none`. -/
def cleanupDumpData (model : String) (data : List Record) : Option (List Record) :=
  if model = "account.journal" then
    some (data.map (fun entry => entry.filter (fun kv => !(kv.1 == "kanban_dashboard_graph"))))
  else if model = "res.users" then
    cleanupUsersData data
  else
    some data

/-- The outcome of one `_dump` fetch inside `config_dump`:
a parsed result list, an HTTP status error (`requests.exceptions.HTTPError`
raised by `raise_for_status` on a non-2xx response), or a connection-level
transport error (`requests.exceptions.ConnectionError`, `Timeout`, ...,
raised by `requests.post` itself and not a subclass of `HTTPError`). -/
inductive FetchOutcome where
  | ok (data : List Record)
  | httpError (msg : String)
  | connError (msg : String)

/-- Observable events of a `config_dump` run: a fetch attempt for a
model, the logged line of a caught failure, or the emitted (printed or
written) cleaned result of a model. -/
inductive DumpEvent where
  | fetched (model : String)
  | logError (model msg : String)
  | output (model : String) (result : List Record)

/-- The fixed resource list of `config_dump` (lines 364-397),
commented-out entries excluded. -/
def configModels : List String :=
  ["ir.config_parameter", "ir.module.module", "res.company", "res.lang",
   "res.partner.category", "account.account", "account.journal",
   "product.category", "product.product", "product.pricelist",
   "product.pricelist.item", "sale.order.template", "sale.subscription.plan",
   "mail.template", "res.users", "res.users.settings", "res.users.apikeys"]

/-- The per-model domain filter of `config_dump` (lines 399-402): only
`ir.module.module` is restricted, to installed modules. -/
def domainFor (model : String) : Option Json :=
  if model = "ir.module.module" then
    some (Json.arr [Json.arr [Json.str "state", Json.str "=", Json.str "installed"]])
  else
    none

/-- The loop body of `OdooApi.config_dump` (lines 398-425) over a model
list, given the fetch behaviour of `_dump` as a function.  The `except
requests.exceptions.HTTPError` clause catches exactly HTTP status errors:
those are logged and the loop continues; a connection-level error or a
TypeError from the cleanup is not caught, so it aborts the loop (second
component carries the uncaught exception).  The output branch abstracts
the stdout/file writing as one `output` event per model. -/
def configDumpGo (fetch : String → Option Json → FetchOutcome) :
    List String → List DumpEvent × Option String
  | [] => ([], none)
  | m :: ms =>
    match fetch m (domainFor m) with
    | .connError msg => ([DumpEvent.fetched m], some msg)
    | .httpError msg =>
      let rest := configDumpGo fetch ms
      (DumpEvent.fetched m :: DumpEvent.logError m msg :: rest.1, rest.2)
    | .ok data =>
      match cleanupDumpData m data with
      | none => ([DumpEvent.fetched m], some "TypeError")
      | some result =>
        let rest := configDumpGo fetch ms
        (DumpEvent.fetched m :: DumpEvent.output m result :: rest.1, rest.2)

/-- `OdooApi.config_dump` (lines 363-425): the loop over the fixed
configuration resource list.  The Python function returns `True` when no
exception escapes; the model returns the event trace plus the uncaught
exception, `none` meaning normal completion. -/
def config_dump (fetch : String → Option Json → FetchOutcome) :
    List DumpEvent × Option String :=
  configDumpGo fetch configModels

/-- The models fetch-attempted during a run, in order. -/
def fetchedModels (evs : List DumpEvent) : List String :=
  evs.filterMap (fun e =>
    match e with
    | .fetched m => some m
    | _ => none)

/-- A fetch outcome the loop body handles without aborting: either a
caught HTTP status error, or a result whose cleanup succeeds. -/
def handledOutcome (model : String) (o : FetchOutcome) : Prop :=
  (∃ msg, o = FetchOutcome.httpError msg) ∨
    (∃ data result, o = FetchOutcome.ok data ∧ cleanupDumpData model data = some result)

lemma checkSix_iff (v : Json) : checkSix v = true ↔ specRemovedSix v := by
  cases v <;> simp [checkSix, specRemovedSix, List.isEmpty_iff]

lemma sparseKeep_eq_not_checkSix (v : Json) : sparseKeep v = !(checkSix v) := by
  cases v <;> simp [sparseKeep, checkSix]

lemma charListLt_asymm :
    ∀ {l1 l2 : List Char}, charListLt l1 l2 = true → charListLt l2 l1 = false := by
  intro l1
  induction l1 with
  | nil =>
    intro l2 h
    cases l2 with
    | nil => simp [charListLt] at h
    | cons b bs => simp [charListLt]
  | cons a as ih =>
    intro l2 h
    cases l2 with
    | nil => simp [charListLt] at h
    | cons b bs =>
      simp only [charListLt] at h ⊢
      by_cases hab : a.toNat < b.toNat
      · have hba : ¬ b.toNat < a.toNat := Nat.lt_asymm hab
        simp [hab, hba]
      · by_cases hba : b.toNat < a.toNat
        · simp [hab, hba] at h
        · simp only [hab, hba, if_false] at h ⊢
          simpa [hab, hba] using ih h

lemma strLtCase_asymm {a b : Json} (h : strLtCase a b = some true) :
    strLtCase b a = some false := by
  cases a <;> cases b <;> simp [strLtCase, pyStrLt] at h ⊢
  exact charListLt_asymm h

lemma pyLt_asymm {a b : Json} (h : pyLt a b = some true) : pyLt b a = some false := by
  unfold pyLt at h ⊢
  cases ha : numVal a <;> cases hb : numVal b <;> simp only [ha, hb] at h ⊢
  · exact strLtCase_asymm h
  · exact strLtCase_asymm h
  · exact strLtCase_asymm h
  · simp only [Option.some.injEq, decide_eq_true_eq] at h
    simp [lt_asymm h]

lemma pyInsert_perm : ∀ {l out : List Json} {x : Json},
    pyInsert x l = some out → out.Perm (x :: l) := by
  intro l
  induction l with
  | nil =>
    intro out x h
    simp only [pyInsert, Option.some.injEq] at h
    subst h
    exact List.Perm.refl _
  | cons y ys ih =>
    intro out x h
    cases hlt : pyLt x y with
    | none => simp [pyInsert, hlt] at h
    | some b =>
      cases b with
      | true =>
        simp only [pyInsert, hlt, Option.some.injEq] at h
        subst h
        exact List.Perm.refl _
      | false =>
        cases hi : pyInsert x ys with
        | none => simp [pyInsert, hlt, hi] at h
        | some o2 =>
          simp only [pyInsert, hlt, hi, Option.map_some', Option.some.injEq] at h
          subst h
          exact ((ih hi).cons y).trans (List.Perm.swap x y ys)

lemma pyInsert_head {x : Json} {l out : List Json} (h : pyInsert x l = some out) :
    out.head? = some x ∨ out.head? = l.head? := by
  cases l with
  | nil =>
    simp only [pyInsert, Option.some.injEq] at h
    subst h
    exact Or.inl rfl
  | cons y ys =>
    cases hlt : pyLt x y with
    | none => simp [pyInsert, hlt] at h
    | some b =>
      cases b with
      | true =>
        simp only [pyInsert, hlt, Option.some.injEq] at h
        subst h
        exact Or.inl rfl
      | false =>
        cases hi : pyInsert x ys with
        | none => simp [pyInsert, hlt, hi] at h
        | some o2 =>
          simp only [pyInsert, hlt, hi, Option.map_some', Option.some.injEq] at h
          subst h
          exact Or.inr rfl

lemma pyInsert_chain : ∀ {l out : List Json} {x : Json},
    l.Chain' pyAsc → pyInsert x l = some out → out.Chain' pyAsc := by
  intro l
  induction l with
  | nil =>
    intro out x _ h
    simp only [pyInsert, Option.some.injEq] at h
    subst h
    exact List.chain'_singleton x
  | cons y ys ih =>
    intro out x hc h
    rcases List.chain'_cons'.1 hc with ⟨hhead, hys⟩
    cases hlt : pyLt x y with
    | none => simp [pyInsert, hlt] at h
    | some b =>
      cases b with
      | true =>
        simp only [pyInsert, hlt, Option.some.injEq] at h
        subst h
        exact List.chain'_cons.2 ⟨pyLt_asymm hlt, hc⟩
      | false =>
        cases hi : pyInsert x ys with
        | none => simp [pyInsert, hlt, hi] at h
        | some o2 =>
          simp only [pyInsert, hlt, hi, Option.map_some', Option.some.injEq] at h
          subst h
          refine List.chain'_cons'.2 ⟨?_, ih hys hi⟩
          intro z hz
          rcases pyInsert_head hi with h1 | h1
          · rw [h1, Option.mem_def, Option.some.injEq] at hz
            subst hz
            exact hlt
          · rw [h1] at hz
            exact hhead z hz

lemma pySortInto_perm : ∀ {l acc out : List Json},
    pySortInto acc l = some out → out.Perm (acc ++ l) := by
  intro l
  induction l with
  | nil =>
    intro acc out h
    simp only [pySortInto, Option.some.injEq] at h
    subst h
    simp
  | cons x xs ih =>
    intro acc out h
    cases hi : pyInsert x acc with
    | none => simp [pySortInto, hi] at h
    | some acc2 =>
      simp only [pySortInto, hi] at h
      exact (ih h).trans (((pyInsert_perm hi).append_right xs).trans List.perm_middle.symm)

lemma pySortInto_chain : ∀ {l acc out : List Json},
    acc.Chain' pyAsc → pySortInto acc l = some out → out.Chain' pyAsc := by
  intro l
  induction l with
  | nil =>
    intro acc out hc h
    simp only [pySortInto, Option.some.injEq] at h
    subst h
    exact hc
  | cons x xs ih =>
    intro acc out hc h
    cases hi : pyInsert x acc with
    | none => simp [pySortInto, hi] at h
    | some acc2 =>
      simp only [pySortInto, hi] at h
      exact ih (pyInsert_chain hc hi) h

lemma sortFieldEntries_length : ∀ {e e2 : Record},
    sortFieldEntries e = some e2 → e2.length = e.length := by
  intro e
  induction e with
  | nil =>
    intro e2 h
    simp only [sortFieldEntries, Option.some.injEq] at h
    subst h
    rfl
  | cons kv rest ih =>
    intro e2 h
    by_cases hk : kv.1 = "fiscal_country_group_codes"
    · rw [sortFieldEntries, if_pos hk] at h
      cases hs : pySorted kv.2 with
      | none => rw [hs] at h; cases h
      | some s =>
        cases ht : sortFieldEntries rest with
        | none => rw [hs, ht] at h; cases h
        | some t =>
          rw [hs, ht] at h
          simp only [Option.some.injEq] at h
          subst h
          simp [ih ht]
    · rw [sortFieldEntries, if_neg hk] at h
      cases ht : sortFieldEntries rest with
      | none => rw [ht] at h; cases h
      | some t =>
        rw [ht] at h
        simp only [Option.some.injEq] at h
        subst h
        simp [ih ht]

lemma sortFieldEntries_get : ∀ {e e2 : Record}, sortFieldEntries e = some e2 →
    ∀ j (hj : j < e.length) (hj2 : j < e2.length),
      (¬ (e.get ⟨j, hj⟩).1 = "fiscal_country_group_codes" →
          e2.get ⟨j, hj2⟩ = e.get ⟨j, hj⟩) ∧
      (∀ lst, e.get ⟨j, hj⟩ = ("fiscal_country_group_codes", Json.arr lst) →
          ∃ l2, pySortInto [] lst = some l2 ∧
            e2.get ⟨j, hj2⟩ = ("fiscal_country_group_codes", Json.arr l2)) := by
  intro e
  induction e with
  | nil =>
    intro e2 _ j hj _
    exact absurd hj (Nat.not_lt_zero j)
  | cons kv rest ih =>
    intro e2 h j hj hj2
    by_cases hk : kv.1 = "fiscal_country_group_codes"
    · rw [sortFieldEntries, if_pos hk] at h
      cases hs : pySorted kv.2 with
      | none => rw [hs] at h; cases h
      | some s =>
        cases ht : sortFieldEntries rest with
        | none => rw [hs, ht] at h; cases h
        | some t =>
          rw [hs, ht] at h
          simp only [Option.some.injEq] at h
          subst h
          cases j with
          | zero =>
            constructor
            · intro hne
              exact absurd hk hne
            · intro lst hkv
              have hv : kv.2 = Json.arr lst := by
                have := congrArg Prod.snd hkv
                simpa using this
              rw [hv, pySorted] at hs
              rcases Option.map_eq_some'.1 hs with ⟨l2, hl2, hs2⟩
              refine ⟨l2, hl2, ?_⟩
              show (kv.1, s) = ("fiscal_country_group_codes", Json.arr l2)
              rw [hk, hs2]
          | succ n =>
            exact ih ht n (Nat.lt_of_succ_lt_succ hj) (Nat.lt_of_succ_lt_succ hj2)
    · rw [sortFieldEntries, if_neg hk] at h
      cases ht : sortFieldEntries rest with
      | none => rw [ht] at h; cases h
      | some t =>
        rw [ht] at h
        simp only [Option.some.injEq] at h
        subst h
        cases j with
        | zero =>
          constructor
          · intro _
            rfl
          · intro lst hkv
            have : kv.1 = "fiscal_country_group_codes" := by
              have := congrArg Prod.fst hkv
              simpa using this
            exact absurd this hk
        | succ n =>
          exact ih ht n (Nat.lt_of_succ_lt_succ hj) (Nat.lt_of_succ_lt_succ hj2)

lemma cleanupUsersEntry_length {e e2 : Record}
    (h : cleanupUsersEntry e = some e2) : e2.length = e.length := by
  unfold cleanupUsersEntry at h
  by_cases hg : e.any (fun kv => kv.1 == "fiscal_country_group_codes") = true
  · rw [if_pos hg] at h
    exact sortFieldEntries_length h
  · rw [if_neg hg] at h
    simp only [Option.some.injEq] at h
    subst h
    rfl

lemma cleanupUsersEntry_get {e e2 : Record} (h : cleanupUsersEntry e = some e2)
    (j : Nat) (hj : j < e.length) (hj2 : j < e2.length) :
    (¬ (e.get ⟨j, hj⟩).1 = "fiscal_country_group_codes" →
        e2.get ⟨j, hj2⟩ = e.get ⟨j, hj⟩) ∧
    (∀ lst, e.get ⟨j, hj⟩ = ("fiscal_country_group_codes", Json.arr lst) →
        ∃ l2, pySortInto [] lst = some l2 ∧
          e2.get ⟨j, hj2⟩ = ("fiscal_country_group_codes", Json.arr l2)) := by
  unfold cleanupUsersEntry at h
  by_cases hg : e.any (fun kv => kv.1 == "fiscal_country_group_codes") = true
  · rw [if_pos hg] at h
    exact sortFieldEntries_get h j hj hj2
  · rw [if_neg hg] at h
    simp only [Option.some.injEq] at h
    subst h
    constructor
    · intro _
      rfl
    · intro lst hkv
      have hmem : e.get ⟨j, hj⟩ ∈ e := List.get_mem e j hj
      rw [hkv] at hmem
      exact absurd (List.any_eq_true.2 ⟨_, hmem, by simp⟩) hg

lemma cleanupUsersData_length : ∀ {ds out : List Record},
    cleanupUsersData ds = some out → out.length = ds.length := by
  intro ds
  induction ds with
  | nil =>
    intro out h
    simp only [cleanupUsersData, Option.some.injEq] at h
    subst h
    rfl
  | cons e es ih =>
    intro out h
    cases he : cleanupUsersEntry e with
    | none => simp [cleanupUsersData, he] at h
    | some e2 =>
      cases hes : cleanupUsersData es with
      | none => simp [cleanupUsersData, he, hes] at h
      | some es2 =>
        simp only [cleanupUsersData, he, hes, Option.some.injEq] at h
        subst h
        simp [ih hes]

lemma cleanupUsersData_get : ∀ {ds out : List Record},
    cleanupUsersData ds = some out →
    ∀ i (hi : i < ds.length) (hi2 : i < out.length),
      cleanupUsersEntry (ds.get ⟨i, hi⟩) = some (out.get ⟨i, hi2⟩) := by
  intro ds
  induction ds with
  | nil =>
    intro out _ i hi _
    exact absurd hi (Nat.not_lt_zero i)
  | cons e es ih =>
    intro out h i hi hi2
    cases he : cleanupUsersEntry e with
    | none => simp [cleanupUsersData, he] at h
    | some e2 =>
      cases hes : cleanupUsersData es with
      | none => simp [cleanupUsersData, he, hes] at h
      | some es2 =>
        simp only [cleanupUsersData, he, hes, Option.some.injEq] at h
        subst h
        cases i with
        | zero => exact he
        | succ n =>
          exact ih hes n (Nat.lt_of_succ_lt_succ hi) (Nat.lt_of_succ_lt_succ hi2)

lemma dictLookup_cons (k : String) (a : String × Json) (d : Dict) :
    dictLookup k (a :: d) = if a.1 == k then some a.2 else dictLookup k d := by
  simp only [dictLookup, List.find?]
  cases h : (a.1 == k) <;> simp [h]

lemma dictLookup_map_set_ne (d : Dict) (k : String) (v : Json) (k2 : String)
    (hne : ¬ k2 = k) :
    dictLookup k2 (d.map (fun kv => if kv.1 == k then (k, v) else kv))
      = dictLookup k2 d := by
  induction d with
  | nil => rfl
  | cons a d ih =>
    simp only [List.map_cons]
    rw [dictLookup_cons, dictLookup_cons]
    by_cases ha : (a.1 == k) = true
    · have hak : a.1 = k := by simpa using ha
      rw [if_pos ha]
      have h1 : (k == k2) = false :=
        beq_false_of_ne (fun hcontra => hne hcontra.symm)
      have h2 : (a.1 == k2) = false := by
        rw [hak]
        exact beq_false_of_ne (fun hcontra => hne hcontra.symm)
      simp only [h1, h2, if_false, Bool.false_eq_true]
      exact ih
    · rw [if_neg ha]
      by_cases ha2 : (a.1 == k2) = true
      · simp only [ha2, if_true]
      · simp only [ha2, if_false, Bool.false_eq_true]
        exact ih

lemma dictLookup_map_set_eq (d : Dict) (k : String) (v : Json)
    (hany : d.any (fun kv => kv.1 == k) = true) :
    dictLookup k (d.map (fun kv => if kv.1 == k then (k, v) else kv)) = some v := by
  induction d with
  | nil => simp at hany
  | cons a d ih =>
    simp only [List.map_cons]
    rw [dictLookup_cons]
    by_cases ha : (a.1 == k) = true
    · rw [if_pos ha]
      simp
    · rw [if_neg ha]
      simp only [ha, if_false, Bool.false_eq_true]
      have : d.any (fun kv => kv.1 == k) = true := by
        simp only [List.any_cons, Bool.or_eq_true] at hany
        rcases hany with h1 | h1
        · exact absurd h1 ha
        · exact h1
      exact ih this

lemma dictLookup_none_of_any_false (d : Dict) (k : String)
    (h : d.any (fun kv => kv.1 == k) = false) : dictLookup k d = none := by
  induction d with
  | nil => rfl
  | cons a d ih =>
    simp only [List.any_cons, Bool.or_eq_false_iff] at h
    rw [dictLookup_cons]
    have h1 : (a.1 == k) = false := h.1
    simp only [h1, Bool.false_eq_true, if_false]
    exact ih h.2

lemma dictLookup_append_single (d : Dict) (k : String) (v : Json) (k2 : String)
    (hnone : dictLookup k d = none) :
    dictLookup k2 (d ++ [(k, v)]) = if k2 = k then some v else dictLookup k2 d := by
  induction d with
  | nil =>
    simp only [List.nil_append]
    rw [dictLookup_cons]
    by_cases hk : k2 = k
    · subst hk
      simp
    · have h1 : (k == k2) = false :=
        beq_false_of_ne (fun hcontra => hk hcontra.symm)
      simp only [h1, Bool.false_eq_true, if_false, if_neg hk]
  | cons a d ih =>
    have ha : (a.1 == k) = false := by
      rcases Bool.eq_false_or_eq_true (a.1 == k) with h1 | h1
      · rw [dictLookup_cons, h1] at hnone
        simp at hnone
      · exact h1
    have hnone2 : dictLookup k d = none := by
      rw [dictLookup_cons, ha] at hnone
      simpa using hnone
    rw [List.cons_append, dictLookup_cons, dictLookup_cons]
    by_cases ha2 : (a.1 == k2) = true
    · have hk2 : ¬ k2 = k := by
        intro hcontra
        rw [hcontra] at ha2
        rw [ha2] at ha
        cases ha
      rw [if_pos ha2, if_neg hk2, if_pos ha2]
    · rw [if_neg ha2, if_neg ha2, ih hnone2]

lemma dictLookup_dictSet (d : Dict) (k : String) (v : Json) (k2 : String) :
    dictLookup k2 (dictSet d k v) = if k2 = k then some v else dictLookup k2 d := by
  by_cases hany : d.any (fun kv => kv.1 == k) = true
  · rw [dictSet, if_pos hany]
    by_cases hk : k2 = k
    · subst hk
      rw [if_pos rfl]
      exact dictLookup_map_set_eq d k2 v hany
    · rw [if_neg hk]
      exact dictLookup_map_set_ne d k v k2 hk
  · rw [dictSet, if_neg hany]
    have hfalse : d.any (fun kv => kv.1 == k) = false := by
      rcases Bool.eq_false_or_eq_true (d.any fun kv => kv.1 == k) with h1 | h1
      · exact absurd h1 hany
      · exact h1
    exact dictLookup_append_single d k v k2 (dictLookup_none_of_any_false d k hfalse)

lemma dictLookup_not_mem (u : Dict) (k : String) (h : ¬ k ∈ u.map Prod.fst) :
    dictLookup k u = none := by
  apply dictLookup_none_of_any_false
  rcases Bool.eq_false_or_eq_true (u.any (fun kv => kv.1 == k)) with h1 | h1
  · rcases List.any_eq_true.1 h1 with ⟨kv, hmem, hb⟩
    have : kv.1 = k := by simpa using hb
    exact absurd (List.mem_map.2 ⟨kv, hmem, this⟩) h
  · exact h1

lemma dictLookup_dictUpdate : ∀ (u d : Dict) (k : String),
    (u.map Prod.fst).Nodup →
    dictLookup k (dictUpdate d u)
      = match dictLookup k u with
        | some v => some v
        | none => dictLookup k d := by
  intro u
  induction u with
  | nil =>
    intro d k _
    rfl
  | cons kv u ih =>
    intro d k hnodup
    rcases List.nodup_cons.1 hnodup with ⟨hnotmem, hnd⟩
    have step : dictUpdate d (kv :: u) = dictUpdate (dictSet d kv.1 kv.2) u := rfl
    rw [step, ih _ k hnd, dictLookup_cons]
    by_cases hk : k = kv.1
    · have hku : dictLookup k u = none := by
        apply dictLookup_not_mem u k
        rw [hk]
        exact hnotmem
      have hbeq : (kv.1 == k) = true := by simp [hk.symm]
      rw [hku, dictLookup_dictSet, if_pos hk, hbeq]
      simp
    · have hbeq : (kv.1 == k) = false :=
        beq_false_of_ne (fun hcontra => hk hcontra.symm)
      rw [dictLookup_dictSet, if_neg hk, hbeq]
      cases dictLookup k u <;> simp

/-- C10: when both a JSON parameter mapping and a key/value argument
mapping are supplied to the generic `call` operation, the issued call
parameters are, key by key, the union of the two mappings with the
argument mapping overriding the JSON mapping on common keys. -/
theorem C10_raw_merges_json_then_args (api : OdooApi) (model method2 : String)
    (j a : Dict) (k : String)
    (hj : (j.map Prod.fst).Nodup) (ha : (a.map Prod.fst).Nodup) :
    dictLookup k (api.raw model method2 (some j) (some a)).body
      = match dictLookup k a with
        | some v => some v
        | none => dictLookup k j := by
  simp only [OdooApi.raw, OdooApi.apiCall, OdooApi.internalCall]
  have hj1 : ∀ jd : Dict, (jd.map Prod.fst).Nodup →
      dictLookup k (if jd.isEmpty then ([] : Dict) else dictUpdate [] jd)
        = dictLookup k jd := by
    intro jd hnd
    by_cases hje : jd.isEmpty = true
    · rw [if_pos hje, List.isEmpty_iff.1 hje]
    · rw [if_neg hje, dictLookup_dictUpdate jd [] k hnd]
      cases dictLookup k jd <;> rfl
  by_cases hae : a.isEmpty = true
  · rw [if_pos hae]
    have ha0 : a = [] := List.isEmpty_iff.1 hae
    subst ha0
    show dictLookup k (if j.isEmpty then ([] : Dict) else dictUpdate [] j)
        = match (none : Option Json) with
          | some v => some v
          | none => dictLookup k j
    rw [hj1 j hj]
  · rw [if_neg hae, dictLookup_dictUpdate a _ k ha]
    cases dictLookup k a with
    | some v => rfl
    | none =>
      show dictLookup k (if j.isEmpty then ([] : Dict) else dictUpdate [] j)
          = dictLookup k j
      exact hj1 j hj

/-- Witness for C10: the `order` key present in both mappings takes the
value of the argument mapping. -/
theorem C10_witness :
    dictLookup "order"
        ((OdooApi.init "https://odoo.example" "KEY" none).raw "res.partner" "search_read"
          (some [("order", Json.str "id ASC"), ("limit", Json.int 80)])
          (some [("order", Json.str "id DESC")])).body
      = some (Json.str "id DESC") :=
  C10_raw_merges_json_then_args
    (OdooApi.init "https://odoo.example" "KEY" none) "res.partner" "search_read"
    [("order", Json.str "id ASC"), ("limit", Json.int 80)]
    [("order", Json.str "id DESC")] "order" (by decide) (by decide)

lemma cleanupDumpData_nil (m : String) : cleanupDumpData m [] = some [] := by
  unfold cleanupDumpData
  by_cases h1 : m = "account.journal"
  · rw [if_pos h1]
    rfl
  · rw [if_neg h1]
    by_cases h2 : m = "res.users"
    · rw [if_pos h2]
      rfl
    · rw [if_neg h2]

lemma configDumpGo_handled (fetch : String → Option Json → FetchOutcome) :
    ∀ ms : List String,
      (∀ m ∈ ms, handledOutcome m (fetch m (domainFor m))) →
      (configDumpGo fetch ms).2 = none ∧
      fetchedModels (configDumpGo fetch ms).1 = ms ∧
      ∀ m msg, m ∈ ms → fetch m (domainFor m) = FetchOutcome.httpError msg →
        DumpEvent.logError m msg ∈ (configDumpGo fetch ms).1 := by
  intro ms
  induction ms with
  | nil =>
    intro _
    refine ⟨rfl, rfl, ?_⟩
    intro m msg hm _
    cases hm
  | cons m0 ms ih =>
    intro h
    have h0 := h m0 (List.mem_cons_self m0 ms)
    have hrest := ih (fun m hm => h m (List.mem_cons_of_mem m0 hm))
    rcases h0 with ⟨msg0, hout⟩ | ⟨data0, result0, hout, hclean⟩
    · refine ⟨?_, ?_, ?_⟩
      · simp only [configDumpGo, hout]
        exact hrest.1
      · simp only [configDumpGo, hout, fetchedModels, List.filterMap_cons]
        show m0 :: fetchedModels (configDumpGo fetch ms).1 = m0 :: ms
        rw [hrest.2.1]
      · intro m msg hm hfetch
        simp only [configDumpGo, hout]
        rcases List.mem_cons.1 hm with rfl | hm2
        · rw [hout] at hfetch
          cases hfetch
          exact List.mem_cons_of_mem _ (List.mem_cons_self _ _)
        · exact List.mem_cons_of_mem _
            (List.mem_cons_of_mem _ (hrest.2.2 m msg hm2 hfetch))
    · refine ⟨?_, ?_, ?_⟩
      · simp only [configDumpGo, hout, hclean]
        exact hrest.1
      · simp only [configDumpGo, hout, hclean, fetchedModels, List.filterMap_cons]
        show m0 :: fetchedModels (configDumpGo fetch ms).1 = m0 :: ms
        rw [hrest.2.1]
      · intro m msg hm hfetch
        simp only [configDumpGo, hout, hclean]
        rcases List.mem_cons.1 hm with rfl | hm2
        · rw [hout] at hfetch
          cases hfetch
        · exact List.mem_cons_of_mem _
            (List.mem_cons_of_mem _ (hrest.2.2 m msg hm2 hfetch))

/-- C2 (counterexample): a connection-level transport error (here a
`ConnectionError` at `res.company`, the third resource) is not caught by
the loop, which only handles `requests.exceptions.HTTPError`: the
exception propagates out of `config_dump` and the remaining resources
(for example `account.journal`) are never attempted. -/
theorem C2_counterexample :
    (config_dump (fun m _ =>
        if m = "res.company" then FetchOutcome.connError "connection refused"
        else FetchOutcome.ok [])).2 = some "connection refused" ∧
    ¬ "account.journal" ∈ fetchedModels (config_dump (fun m _ =>
        if m = "res.company" then FetchOutcome.connError "connection refused"
        else FetchOutcome.ok [])).1 := by
  constructor
  · rfl
  · decide

/-- C2 (amended): during bulk configuration export, if the fetch of any
single resource raises an HTTP status error (`HTTPError` from
`raise_for_status`, the only exception class the loop catches), the
export still attempts every resource in the list and completes without
an exception, and each such failure is reported by a logged line;
connection-level transport errors are not caught and abort the export. -/
theorem C2_http_error_logged_and_continue
    (fetch : String → Option Json → FetchOutcome)
    (h : ∀ m ∈ configModels, handledOutcome m (fetch m (domainFor m))) :
    (config_dump fetch).2 = none ∧
    fetchedModels (config_dump fetch).1 = configModels ∧
    ∀ m msg, m ∈ configModels → fetch m (domainFor m) = FetchOutcome.httpError msg →
      DumpEvent.logError m msg ∈ (config_dump fetch).1 :=
  configDumpGo_handled fetch configModels h

/-- Witness for C2: a run where `res.company` answers with an HTTP 500
status error and every other resource fetch succeeds with an empty
result; the run completes, attempts all seventeen resources, and logs
the failure. -/
theorem C2_witness :
    (config_dump (fun m _ =>
        if m = "res.company" then FetchOutcome.httpError "500 Server Error"
        else FetchOutcome.ok [])).2 = none ∧
    fetchedModels (config_dump (fun m _ =>
        if m = "res.company" then FetchOutcome.httpError "500 Server Error"
        else FetchOutcome.ok [])).1 = configModels ∧
    ∀ m msg, m ∈ configModels →
      (fun m _ =>
        if m = "res.company" then FetchOutcome.httpError "500 Server Error"
        else FetchOutcome.ok []) m (domainFor m) = FetchOutcome.httpError msg →
      DumpEvent.logError m msg ∈ (config_dump (fun m _ =>
        if m = "res.company" then FetchOutcome.httpError "500 Server Error"
        else FetchOutcome.ok [])).1 :=
  C2_http_error_logged_and_continue
    (fun m _ =>
      if m = "res.company" then FetchOutcome.httpError "500 Server Error"
      else FetchOutcome.ok [])
    (by
      intro m _
      by_cases hm : m = "res.company"
      · exact Or.inl ⟨"500 Server Error", by simp [hm]⟩
      · exact Or.inr ⟨[], [], by simp [hm], cleanupDumpData_nil m⟩)

/-- C1 (counterexample): the sparse filter of `show` in non-verbose mode
removes a field holding boolean false, although boolean false is not one
of the five values the claim lists as the exact removal set. -/
theorem C1_counterexample :
    showCmd [[("active", Json.bool false)]] false = [[]] ∧
      ¬ specRemovedFive (Json.bool false) := by
  refine ⟨rfl, ?_⟩
  simp [specRemovedFive]

/-- C1 (amended): the sparse filter applied by `show` in non-verbose mode
removes from each record exactly the keys whose value is one of empty
string, empty array, null, integer zero, float zero, or boolean false
(Python compares `False == 0`), preserves every other key-value pair, and
preserves field order within each record and record order in the list.
The first conjunct identifies the boolean checker with the six-value
removal set; the second shows the filter keeps exactly the complement. -/
theorem C1_sparse_filter_removal_set :
    (∀ v : Json, checkSix v = true ↔ specRemovedSix v) ∧
      ∀ recs : List Record,
        showCmd recs false = recs.map (fun r => r.filter (fun kv => !(checkSix kv.2))) := by
  refine ⟨checkSix_iff, ?_⟩
  intro recs
  have hfun : (fun kv : String × Json => sparseKeep kv.2)
      = fun kv : String × Json => !(checkSix kv.2) := by
    funext kv
    exact sparseKeep_eq_not_checkSix kv.2
  simp [showCmd, sparseRecords, hfun]

/-- C9: the sparse filter of `show` in non-verbose mode removes exactly
the fields whose value is in the six-value set containing empty string,
empty array, null, integer zero, float zero, and boolean false, while a
field holding boolean true is preserved, as the concrete run shows. -/
theorem C9_sparse_filter_drops_false :
    (∀ v : Json, sparseKeep v = false ↔ specRemovedSix v) ∧
      showCmd [[("a", Json.bool false), ("b", Json.bool true)]] false
        = [[("b", Json.bool true)]] := by
  refine ⟨?_, rfl⟩
  intro v
  rw [sparseKeep_eq_not_checkSix, ← checkSix_iff]
  cases checkSix v <;> simp

/-- C4: the dump noise filter on `account.journal` leaves no record with
the key `kanban_dashboard_graph`, and applying it a second time to its
own output returns that output unchanged (idempotence). -/
theorem C4_journal_filter_absent_and_idempotent (data out : List Record)
    (h : cleanupDumpData "account.journal" data = some out) :
    (∀ r ∈ out, ∀ kv ∈ r, ¬ kv.1 = "kanban_dashboard_graph") ∧
      cleanupDumpData "account.journal" out = some out := by
  have hout : out
      = data.map (fun entry => entry.filter (fun kv => !(kv.1 == "kanban_dashboard_graph"))) := by
    have := h
    simp [cleanupDumpData] at this
    exact this.symm
  subst hout
  constructor
  · intro r hr kv hkv
    rcases List.mem_map.1 hr with ⟨r0, _, rfl⟩
    have hmem := List.mem_filter.1 hkv
    simpa using hmem.2
  · simp [cleanupDumpData, List.map_map, Function.comp, List.filter_filter]

/-- Witness for C4 at a concrete journal record. -/
theorem C4_witness :
    (∀ r ∈ [[("name", Json.str "Bank")]], ∀ kv ∈ r, ¬ kv.1 = "kanban_dashboard_graph") ∧
      cleanupDumpData "account.journal" [[("name", Json.str "Bank")]]
        = some [[("name", Json.str "Bank")]] :=
  C4_journal_filter_absent_and_idempotent
    [[("kanban_dashboard_graph", Json.str "svg-blob"), ("name", Json.str "Bank")]]
    [[("name", Json.str "Bank")]] rfl

/-- C5: the dump noise filter on `res.users` replaces, in every record
that contains the fiscal-country-group-codes field, that list value with
the same elements (a permutation) in ascending order, leaves every other
field of every record unchanged in place (hence records without the
field are unchanged), and for every model other than `account.journal`
and `res.users` the filter returns its input unchanged. -/
theorem C5_users_sort_and_passthrough (data out : List Record) (i j : Nat)
    (lst : List Json) (model : String)
    (h : cleanupDumpData "res.users" data = some out)
    (hi : i < data.length) (hi2 : i < out.length)
    (hj : j < (data.get ⟨i, hi⟩).length) (hj2 : j < (out.get ⟨i, hi2⟩).length)
    (hm1 : ¬ model = "account.journal") (hm2 : ¬ model = "res.users") :
    out.length = data.length ∧
    (out.get ⟨i, hi2⟩).length = (data.get ⟨i, hi⟩).length ∧
    (¬ ((data.get ⟨i, hi⟩).get ⟨j, hj⟩).1 = "fiscal_country_group_codes" →
        (out.get ⟨i, hi2⟩).get ⟨j, hj2⟩ = (data.get ⟨i, hi⟩).get ⟨j, hj⟩) ∧
    ((data.get ⟨i, hi⟩).get ⟨j, hj⟩ = ("fiscal_country_group_codes", Json.arr lst) →
        ∃ l2, (out.get ⟨i, hi2⟩).get ⟨j, hj2⟩ = ("fiscal_country_group_codes", Json.arr l2) ∧
          l2.Perm lst ∧ l2.Chain' pyAsc) ∧
    cleanupDumpData model data = some data := by
  have hu : cleanupUsersData data = some out := by
    simpa [cleanupDumpData] using h
  have hent := cleanupUsersData_get hu i hi hi2
  refine ⟨cleanupUsersData_length hu, cleanupUsersEntry_length hent, ?_, ?_, ?_⟩
  · exact (cleanupUsersEntry_get hent j hj hj2).1
  · intro hkv
    rcases (cleanupUsersEntry_get hent j hj hj2).2 lst hkv with ⟨l2, hsort, hget⟩
    refine ⟨l2, hget, ?_, pySortInto_chain List.chain'_nil hsort⟩
    simpa using pySortInto_perm hsort
  · simp [cleanupDumpData, hm1, hm2]

/-- Witness for C5 at a concrete user record whose code list is out of
order, with `res.partner` as the untouched third model. -/
theorem C5_witness :
    [[("login", Json.str "admin"),
      ("fiscal_country_group_codes", Json.arr [Json.str "b", Json.str "a"])]].length
      = [[("login", Json.str "admin"),
          ("fiscal_country_group_codes", Json.arr [Json.str "b", Json.str "a"])]].length ∧
    ([("login", Json.str "admin"),
      ("fiscal_country_group_codes", Json.arr [Json.str "a", Json.str "b"])] : Record).length
      = ([("login", Json.str "admin"),
          ("fiscal_country_group_codes", Json.arr [Json.str "b", Json.str "a"])] : Record).length ∧
    (¬ ("fiscal_country_group_codes", Json.arr [Json.str "b", Json.str "a"]).1
          = "fiscal_country_group_codes" →
        ("fiscal_country_group_codes", Json.arr [Json.str "a", Json.str "b"])
          = ("fiscal_country_group_codes", Json.arr [Json.str "b", Json.str "a"])) ∧
    (("fiscal_country_group_codes", Json.arr [Json.str "b", Json.str "a"])
          = ("fiscal_country_group_codes", Json.arr [Json.str "b", Json.str "a"]) →
        ∃ l2, ("fiscal_country_group_codes", Json.arr [Json.str "a", Json.str "b"])
            = ("fiscal_country_group_codes", Json.arr l2) ∧
          l2.Perm [Json.str "b", Json.str "a"] ∧ l2.Chain' pyAsc) ∧
    cleanupDumpData "res.partner"
        [[("login", Json.str "admin"),
          ("fiscal_country_group_codes", Json.arr [Json.str "b", Json.str "a"])]]
      = some [[("login", Json.str "admin"),
          ("fiscal_country_group_codes", Json.arr [Json.str "b", Json.str "a"])]] :=
  C5_users_sort_and_passthrough
    [[("login", Json.str "admin"),
      ("fiscal_country_group_codes", Json.arr [Json.str "b", Json.str "a"])]]
    [[("login", Json.str "admin"),
      ("fiscal_country_group_codes", Json.arr [Json.str "a", Json.str "b"])]]
    0 1 [Json.str "b", Json.str "a"] "res.partner"
    rfl (by decide) (by decide) (by decide) (by decide) (by decide) (by decide)

/-- C6: `show` with verbose true returns the query result unchanged, and
the non-verbose output is a fixed point of the sparse filter: applying
the filter to it again returns it unchanged. -/
theorem C6_show_verbose_id_and_filter_fixed_point :
    (∀ recs : List Record, showCmd recs true = recs) ∧
      ∀ recs : List Record, sparseRecords (showCmd recs false) = showCmd recs false := by
  refine ⟨fun recs => rfl, ?_⟩
  intro recs
  simp [showCmd, sparseRecords, List.map_map, Function.comp, List.filter_filter]

/-- C7: for every model and field mapping, `create` issues exactly one
underlying call, a POST to the API URL for resource `model` and
operation `create`, whose parameters are the single named parameter
`vals_list` holding the one-element list containing the field mapping. -/
theorem C7_create_single_vals_list (api : OdooApi) (model : String) (args : Dict) :
    api.create model args
      = { method := HttpMethod.post
          url := api.apiurl ++ "/" ++ model ++ "/" ++ "create"
          headers := api.headers
          body := [("vals_list", Json.arr [Json.obj args])] } := rfl

/-- C3 (counterexample): at a concrete configuration, the databases
request is a POST, not a GET, and it carries the `Authorization` header
with the configured API key, contradicting the unauthenticated-GET claim. -/
theorem C3_counterexample :
    (OdooApi.init "https://odoo.example" "SECRET" none).get_databases_request.method
        = HttpMethod.post ∧
    ¬ (OdooApi.init "https://odoo.example" "SECRET" none).get_databases_request.method
        = HttpMethod.get ∧
    ("Authorization", "bearer SECRET")
      ∈ (OdooApi.init "https://odoo.example" "SECRET" none).get_databases_request.headers := by
  refine ⟨rfl, ?_, ?_⟩
  · intro hcontra
    exact HttpMethod.noConfusion hcontra
  · simp [OdooApi.init, OdooApi.get_databases_request, OdooApi.internalCall]

/-- C3 (amended): for every client configuration, `databases` issues one
POST request (Python `requests.post`, not GET) to the database-list path
on the root URL (not the API sub-path), carrying the standard header set
including the bearer API key (the server simply does not require it),
with an empty parameter body, and returns exactly the value of the
`result` field of the JSON-RPC-shaped response body. -/
theorem C3_databases_root_post_result (url key : String) (db : Option String)
    (fields : Dict) (r : Json) (h : dictLookup "result" fields = some r) :
    (OdooApi.init url key db).get_databases_request.method = HttpMethod.post ∧
    (OdooApi.init url key db).get_databases_request.url
      = (OdooApi.init url key db).baseurl ++ "/" ++ "web" ++ "/" ++ "database/list" ∧
    (OdooApi.init url key db).baseurl = url ∧
    (OdooApi.init url key db).get_databases_request.headers
      = (OdooApi.init url key db).headers ∧
    ("Authorization", "bearer " ++ key)
      ∈ (OdooApi.init url key db).get_databases_request.headers ∧
    (OdooApi.init url key db).get_databases_request.body = [] ∧
    get_databases_result (Json.obj fields) = some r := by
  refine ⟨rfl, rfl, rfl, rfl, ?_, rfl, ?_⟩
  · simp [OdooApi.init, OdooApi.get_databases_request, OdooApi.internalCall]
  · simpa [get_databases_result] using h

/-- Witness for C3 at a concrete configuration and response envelope. -/
theorem C3_witness :
    (OdooApi.init "https://odoo.example" "KEY" (some "mydb")).get_databases_request.method
        = HttpMethod.post ∧
    (OdooApi.init "https://odoo.example" "KEY" (some "mydb")).get_databases_request.url
      = (OdooApi.init "https://odoo.example" "KEY" (some "mydb")).baseurl
          ++ "/" ++ "web" ++ "/" ++ "database/list" ∧
    (OdooApi.init "https://odoo.example" "KEY" (some "mydb")).baseurl = "https://odoo.example" ∧
    (OdooApi.init "https://odoo.example" "KEY" (some "mydb")).get_databases_request.headers
      = (OdooApi.init "https://odoo.example" "KEY" (some "mydb")).headers ∧
    ("Authorization", "bearer " ++ "KEY")
      ∈ (OdooApi.init "https://odoo.example" "KEY" (some "mydb")).get_databases_request.headers ∧
    (OdooApi.init "https://odoo.example" "KEY" (some "mydb")).get_databases_request.body = [] ∧
    get_databases_result
        (Json.obj [("jsonrpc", Json.str "2.0"), ("id", Json.null),
                   ("result", Json.arr [Json.str "mydb"])])
      = some (Json.arr [Json.str "mydb"]) :=
  C3_databases_root_post_result "https://odoo.example" "KEY" (some "mydb")
    [("jsonrpc", Json.str "2.0"), ("id", Json.null), ("result", Json.arr [Json.str "mydb"])]
    (Json.arr [Json.str "mydb"]) rfl

/-- C8: every command name outside the dispatch table makes the dispatch
print the unsupported-command message followed by the help text; no RPC
effect occurs and the branch returns normally (no exception). -/
theorem C8_unknown_command_prints_usage (command : String)
    (h : ¬ methodMapKeys.contains command = true) :
    dispatchCommand command
      = [MainEffect.printLine ("unsupported command " ++ sqc ++ command ++ sqc ++ "\n"),
         MainEffect.printHelp] ∧
    ∀ e ∈ dispatchCommand command, ∀ c, ¬ e = MainEffect.rpcDispatch c := by
  have hbranch : dispatchCommand command
      = [MainEffect.printLine ("unsupported command " ++ sqc ++ command ++ sqc ++ "\n"),
         MainEffect.printHelp] := by
    rw [dispatchCommand, if_neg h]
  refine ⟨hbranch, ?_⟩
  intro e he c
  rw [hbranch] at he
  simp only [List.mem_cons, List.not_mem_nil, or_false] at he
  rcases he with rfl | rfl
  · intro hc
    cases hc
  · intro hc
    cases hc

/-- Witness for C8 at the unknown command `foo`. -/
theorem C8_witness :
    dispatchCommand "foo"
      = [MainEffect.printLine ("unsupported command " ++ sqc ++ "foo" ++ sqc ++ "\n"),
         MainEffect.printHelp] ∧
    ∀ e ∈ dispatchCommand "foo", ∀ c, ¬ e = MainEffect.rpcDispatch c :=
  C8_unknown_command_prints_usage "foo" (by decide)
